import Mathlib

/-!
Verification of the eventDSL repository's scheduling validator, rules
semantic validator, ingestion orchestrators and AST-to-JSON converter.

The definitions below are shallow embeddings of the Python sources:
  * `validators/scheduling.py`  (`_parse_time_to_minutes`, `validate_event_scheduling`)
  * `parsers/rules.py`          (`validate_model`, `parse_rules_from_text`)
  * `parsers/events.py`         (`parse_and_save_events`)
  * `api_server.py`             (`model_to_dict`)
SQLite storage is modelled as an explicit list of rows threaded through the
functions; exceptions are modelled with `Except String`.
-/

namespace EventDSL

/-! ## Python `int()` and `str.strip()`/`str.split(":")` model

`_parse_time_to_minutes` relies on Python's `int(...)` applied to the two
pieces of the (stripped) input around `":"`.  For ASCII input Python's
`int` strips surrounding whitespace, accepts one optional `+`/`-` sign, and
then decimal digits optionally grouped by single underscores placed between
digits.  The functions below model exactly that behaviour. -/

/-- Whitespace characters stripped by Python `str.strip()` / `int()` (ASCII). -/
def isPyWS (c : Char) : Bool :=
  c = ' ' || c = '\t' || c = '\n' || c = '\r' || c = '\x0b' || c = '\x0c'

/-- Python `str.strip()` on a character list. -/
def pyStripChars (cs : List Char) : List Char :=
  ((cs.dropWhile isPyWS).reverse.dropWhile isPyWS).reverse

/-- Numeric value of an ASCII digit character. -/
def digitVal (c : Char) : Nat := c.toNat - 48

/-- Digits of a Python integer literal after the first digit: decimal digits
with single underscores allowed only between digits. -/
def pyDigitsCore (acc : Nat) : List Char → Option Nat
  | [] => some acc
  | c :: rest =>
    if c = '_' then
      match rest with
      | c2 :: rest2 =>
        if c2.isDigit then pyDigitsCore (acc * 10 + digitVal c2) rest2 else none
      | [] => none
    else if c.isDigit then pyDigitsCore (acc * 10 + digitVal c) rest else none

/-- Digit run of a Python integer literal: must start with a digit. -/
def pyDigits : List Char → Option Nat
  | c :: rest => if c.isDigit then pyDigitsCore (digitVal c) rest else none
  | [] => none

/-- Python `int(s)` for an ASCII string given as a character list:
strip whitespace, optional sign, digit run.  Returns `none` where Python
raises `ValueError`. -/
def pyInt (cs : List Char) : Option Int :=
  match pyStripChars cs with
  | [] => none
  | c :: rest =>
    if c = '+' then (pyDigits rest).map (fun n => (n : Int))
    else if c = '-' then (pyDigits rest).map (fun n => -(n : Int))
    else (pyDigits (c :: rest)).map (fun n => (n : Int))

/-- Python `str.split(sep)` for a single-character separator. -/
def splitOnChar (sep : Char) : List Char → List (List Char)
  | [] => [[]]
  | c :: rest =>
    match splitOnChar sep rest with
    | [] => [[c]]
    | p :: ps => if c = sep then [] :: p :: ps else (c :: p) :: ps

/-! ## `validators/scheduling.py` -/

/-- Message of the `SchedulingValidationError` raised by
`_parse_time_to_minutes` on malformed input. -/
def timeFormatErr (s : String) : String :=
  "Invalid time format '" ++ s ++ "'. Expected HH:MM in 24-hour format."

/-- Embedding of `_parse_time_to_minutes` (validators/scheduling.py):
strip, split on `":"`, require exactly two pieces, convert each with
Python `int`, require `0 <= hour < 24` and `0 <= minute < 60`, and return
`hour * 60 + minute`. -/
def parse_time_to_minutes (time_str : String) : Except String Nat :=
  match splitOnChar ':' (pyStripChars time_str.data) with
  | [p1, p2] =>
    match pyInt p1, pyInt p2 with
    | some hour, some minute =>
      if 0 ≤ hour ∧ hour < 24 ∧ 0 ≤ minute ∧ minute < 60 then
        Except.ok (hour.toNat * 60 + minute.toNat)
      else Except.error (timeFormatErr time_str)
    | _, _ => Except.error (timeFormatErr time_str)
  | _ => Except.error (timeFormatErr time_str)

/-- A persisted event row of the `requester_unit` schema generation, as
unpacked by `validate_event_scheduling`:
`(id, name, requester_type, date, start_time, end_time, location, requester_unit)`. -/
structure StoredEvent where
  id : Nat
  name : String
  requester_type : String
  date : String
  start_time : String
  end_time : String
  location : String
  requester_unit : Option String
  deriving Repr, DecidableEq

/-- Modelled from the spec: the storage operation
`listEventsForDateLocation(date, location)` of the `requester_unit` schema
generation's db module (imported by `validators/scheduling.py` but absent
from the sources; `db.py` present in the sources is the `campus_id`
generation).  Per the spec it returns all persisted events whose `date` and
`location` equal the given pair.  (The spec also orders the result by
`startTime`; no claim depends on the order, and the filter keeps insertion
order.) -/
def get_events_for_date_location (db : List StoredEvent) (date location : String) :
    List StoredEvent :=
  db.filter (fun ev => ev.date == date && ev.location == location)

/-- The overlap test of `validate_event_scheduling`:
`not (new_end <= ev_start or new_start >= ev_end)`. -/
def overlapB (new_start new_end ev_start ev_end : Nat) : Bool :=
  !(decide (new_end ≤ ev_start) || decide (new_start ≥ ev_end))

/-- The `", {requester_unit}"` suffix added for a truthy `requester_unit`
(Python truthiness: `None` and the empty string yield no suffix). -/
def requesterUnitExtra (u : Option String) : String :=
  match u with
  | none => ""
  | some s => if s = "" then "" else ", " ++ s

/-- The conflict line `- [{id}] {date} {start}-{end} | {name} ({requester}{extra} @ {location})`
appended for each overlapping stored event. -/
def fmtConflict (ev : StoredEvent) : String :=
  "- [" ++ toString ev.id ++ "] " ++ ev.date ++ " " ++ ev.start_time ++ "-"
    ++ ev.end_time ++ " | " ++ ev.name ++ " (" ++ ev.requester_type
    ++ requesterUnitExtra ev.requester_unit ++ " @ " ++ ev.location ++ ")"

/-- Whether a stored event conflicts with a candidate occupying
`[new_start, new_end)` (both of the stored event's times must parse). -/
def conflictB (new_start new_end : Nat) (ev : StoredEvent) : Bool :=
  match parse_time_to_minutes ev.start_time, parse_time_to_minutes ev.end_time with
  | Except.ok ev_start, Except.ok ev_end => overlapB new_start new_end ev_start ev_end
  | _, _ => false

/-- The conflict-collection loop of `validate_event_scheduling`: parse each
stored event's times (propagating the format error a malformed stored time
raises) and collect the formatted lines of the overlapping ones, in order. -/
def collectConflicts (new_start new_end : Nat) :
    List StoredEvent → Except String (List String)
  | [] => Except.ok []
  | ev :: rest =>
    match parse_time_to_minutes ev.start_time with
    | Except.error e => Except.error e
    | Except.ok ev_start =>
      match parse_time_to_minutes ev.end_time with
      | Except.error e => Except.error e
      | Except.ok ev_end =>
        match collectConflicts new_start new_end rest with
        | Except.error e => Except.error e
        | Except.ok cs =>
          Except.ok
            (if overlapB new_start new_end ev_start ev_end then fmtConflict ev :: cs else cs)

/-- Message of the ordering failure (`start_min >= end_min`). -/
def orderErr (start_time end_time : String) : String :=
  "Start time '" ++ start_time ++ "' must be earlier than end time '" ++ end_time ++ "'."

/-- Message of the minimum-duration failure. -/
def durationErr (duration : Nat) : String :=
  "Event duration must be at least 60 minutes. Current duration: "
    ++ toString duration ++ " minutes."

/-- Header line of the conflict failure message. -/
def conflictHeader : String :=
  "Cannot schedule event due to time conflict with existing events:\n"

/-- Embedding of `validate_event_scheduling` (validators/scheduling.py),
with the storage contents passed explicitly as `db`.  Checks in source
order: time format of both times, `start < end`, duration `>= 60`, then
conflicts against the events fetched for `(date, location)`. -/
def validate_event_scheduling (db : List StoredEvent)
    (name requester_type date start_time end_time location : String) :
    Except String Unit :=
  match parse_time_to_minutes start_time with
  | Except.error e => Except.error e
  | Except.ok start_min =>
    match parse_time_to_minutes end_time with
    | Except.error e => Except.error e
    | Except.ok end_min =>
      if start_min ≥ end_min then
        Except.error (orderErr start_time end_time)
      else if end_min - start_min < 60 then
        Except.error (durationErr (end_min - start_min))
      else
        match collectConflicts start_min end_min
            (get_events_for_date_location db date location) with
        | Except.error e => Except.error e
        | Except.ok conflicts =>
          if conflicts.isEmpty then Except.ok ()
          else Except.error (conflictHeader ++ String.intercalate "\n" conflicts)

/-! ## `parsers/rules.py` — AST shape, semantic validator, ingestion -/

/-- A parsed field block of the rules DSL: `visible` and `required` carry the
raw `"yes"`/`"no"` strings, `options` is the (possibly empty) option list. -/
structure FieldSpec where
  field_name : String
  visible : String
  required : String
  label : Option String
  options : List String
  deriving Repr, DecidableEq

/-- A parsed `event_form` block. -/
structure FormSpec where
  requester_type : String
  fields : List FieldSpec
  deriving Repr, DecidableEq

/-- A parsed rules document; `init_status` is `model.init.status`, the raw
string of the `initialize_runtime = yes|no` declaration. -/
structure RulesDocument where
  init_status : String
  forms : List FormSpec
  deriving Repr, DecidableEq

/-- `MANDATORY_FIELDS` (= `ALWAYS_REQUIRED_FIELDS`), listed alphabetically as
Python's `sorted` produces them for messages. -/
def MANDATORY_FIELDS : List String :=
  ["end_time", "event_date", "event_name", "location", "start_time"]

/-- `ALLOWED_OPTION_FIELDS`. -/
def ALLOWED_OPTION_FIELDS : List String := ["location", "requester_unit"]

/-- `REQUIRED_REQUESTER_TYPES`, listed alphabetically. -/
def REQUIRED_REQUESTER_TYPES : List String := ["Academics", "Students"]

/-- Message of semantic rule 1 (`initialize_runtime` must be `yes`). -/
def runtimeErr : String :=
  "initialize_runtime must be 'yes' to enable rules. Set: initialize_runtime = yes"

/-- Message of semantic rule 2 (duplicate `event_form`). -/
def dupFormErr (requester : String) : String :=
  "Duplicate event_form for requester_type '" ++ requester
    ++ "'. Each requester_type must be defined only once."

/-- Message of semantic rule 3 (duplicate field in a form). -/
def dupFieldErr (name requester : String) : String :=
  "Duplicate field '" ++ name ++ "' in event_form " ++ requester
    ++ ". Remove the duplicate definition."

/-- Message of semantic rule 4 (`options` on a non-allow-listed field). -/
def optionsErr (name requester : String) : String :=
  "Field '" ++ name ++ "' in event_form " ++ requester
    ++ " defines 'options', but only these fields can define options: location, requester_unit."

/-- Message of semantic rule 5a (mandatory field not `required = yes`). -/
def requiredErr (name requester : String) : String :=
  "Field '" ++ name ++ "' in event_form " ++ requester
    ++ " must have 'required = yes' because it is a mandatory field."

/-- Message of semantic rule 5b (mandatory fields missing from a form). -/
def missingFieldsErr (requester : String) (missing : List String) : String :=
  "event_form " ++ requester ++ " is missing mandatory fields: "
    ++ String.intercalate ", " missing ++ ". All of them must be defined in the form."

/-- Message of semantic rule 6 (required requester types without a form). -/
def missingFormsErr (missing : List String) : String :=
  "Missing event_form definitions for: " ++ String.intercalate ", " missing
    ++ ". Define a form for each requester_type."

/-- The per-field loop of `validate_model`: for each field in order, check
duplicate name, then the options allow-list, then mandatory ⇒ required.
`seen` accumulates the field names already encountered (`field_map`'s keys);
on success the final accumulator is returned. -/
def checkFieldsLoop (requester : String) (seen : List String) :
    List FieldSpec → Except String (List String)
  | [] => Except.ok seen
  | f :: rest =>
    if f.field_name ∈ seen then
      Except.error (dupFieldErr f.field_name requester)
    else if f.options ≠ [] ∧ f.field_name ∉ ALLOWED_OPTION_FIELDS then
      Except.error (optionsErr f.field_name requester)
    else if f.field_name ∈ MANDATORY_FIELDS ∧ f.required ≠ "yes" then
      Except.error (requiredErr f.field_name requester)
    else checkFieldsLoop requester (f.field_name :: seen) rest

/-- The body of `validate_model`'s form loop for one form: walk the fields,
then require every mandatory field to be present. -/
def checkForm (form : FormSpec) : Except String Unit :=
  match checkFieldsLoop form.requester_type [] form.fields with
  | Except.error e => Except.error e
  | Except.ok names =>
    match MANDATORY_FIELDS.filter (fun n => n ∉ names) with
    | [] => Except.ok ()
    | missing => Except.error (missingFieldsErr form.requester_type missing)

/-- The form loop of `validate_model`: duplicate `requester_type` check, then
the per-form checks; `seen` accumulates the requester types already
encountered and is returned on success. -/
def checkFormsLoop (seen : List String) :
    List FormSpec → Except String (List String)
  | [] => Except.ok seen
  | form :: rest =>
    if form.requester_type ∈ seen then
      Except.error (dupFormErr form.requester_type)
    else
      match checkForm form with
      | Except.error e => Except.error e
      | Except.ok _ => checkFormsLoop (form.requester_type :: seen) rest

/-- Embedding of `validate_model` (parsers/rules.py): runtime flag, then the
form loop, then the required-requester-types completeness check. -/
def validate_model (doc : RulesDocument) : Except String Unit :=
  if doc.init_status ≠ "yes" then Except.error runtimeErr
  else
    match checkFormsLoop [] doc.forms with
    | Except.error e => Except.error e
    | Except.ok seen =>
      match REQUIRED_REQUESTER_TYPES.filter (fun r => r ∉ seen) with
      | [] => Except.ok ()
      | missing => Except.error (missingFormsErr missing)

/-- A persisted `form_fields` row as written by `save_form_field_rule`. -/
structure FieldRuleRow where
  requester_type : String
  field_name : String
  visible : Bool
  required : Bool
  label : Option String
  options : Option (List String)
  deriving Repr, DecidableEq

/-- The row `parse_rules_from_text` persists for one field of one form:
`visible`/`required` compared against `"yes"`, `options` written only when
the parsed option list is non-empty. -/
def rowOfField (requester : String) (f : FieldSpec) : FieldRuleRow :=
  { requester_type := requester
    field_name := f.field_name
    visible := f.visible == "yes"
    required := f.required == "yes"
    label := f.label
    options := if f.options = [] then none else some f.options }

/-- The rows one form contributes, in field insertion order. -/
def rowsOfForm (form : FormSpec) : List FieldRuleRow :=
  form.fields.map (rowOfField form.requester_type)

/-- Embedding of `parse_rules_from_text` (parsers/rules.py).  The parse step
(textX, whose grammar file is external to the sources) is passed in as its
result; the stored rule set is passed as `store` and the final store is
returned alongside the outcome.  On success the prior rows are cleared
(`clear_form_rules`) and the new rows written in per-form field order. -/
def parse_rules_from_text (parsed : Except String RulesDocument)
    (store : List FieldRuleRow) : Except String Nat × List FieldRuleRow :=
  match parsed with
  | Except.error e => (Except.error e, store)
  | Except.ok doc =>
    match validate_model doc with
    | Except.error e => (Except.error e, store)
    | Except.ok _ => (Except.ok doc.forms.length, doc.forms.flatMap rowsOfForm)

/-! ## `parsers/events.py` — events ingestion -/

/-- An `EventDraft` produced by parsing one event block of the events DSL. -/
structure EventDraft where
  name : String
  requester_type : String
  date : String
  start_time : String
  end_time : String
  location : String
  deriving Repr, DecidableEq

/-- The scheduling validation `parse_and_save_events` runs for one draft. -/
def validateDraft (store : List StoredEvent) (d : EventDraft) : Except String Unit :=
  validate_event_scheduling store d.name d.requester_type d.date
    d.start_time d.end_time d.location

/-- The wrapper message `parse_and_save_events` raises around a failing
draft's scheduling error. -/
def draftErr (d : EventDraft) (e : String) : String :=
  "Error in event '" ++ d.name ++ "' on " ++ d.date ++ " " ++ d.start_time
    ++ "-" ++ d.end_time ++ " (" ++ d.requester_type ++ " @ " ++ d.location
    ++ "):\n" ++ e

/-- Pass 1 of `parse_and_save_events`: validate every draft against the
events already in storage, wrapping the first failure. -/
def validateAllDrafts (store : List StoredEvent) :
    List EventDraft → Except String Unit
  | [] => Except.ok ()
  | d :: rest =>
    match validateDraft store d with
    | Except.error e => Except.error (draftErr d e)
    | Except.ok _ => validateAllDrafts store rest

/-- Modelled from the spec: `appendEvent` of the storage collaborator
(the `requester_unit` generation's `save_event`, absent from the sources)
assigns a fresh identifier to the appended event; `requester_unit` is not
supplied by the events-DSL path and is stored as NULL. -/
def freshId (store : List StoredEvent) : Nat :=
  (store.map (fun ev => ev.id)).foldr Nat.max 0 + 1

/-- The persisted event a draft becomes. -/
def storedOfDraft (id : Nat) (d : EventDraft) : StoredEvent :=
  { id := id
    name := d.name
    requester_type := d.requester_type
    date := d.date
    start_time := d.start_time
    end_time := d.end_time
    location := d.location
    requester_unit := none }

/-- Pass 2 of `parse_and_save_events`: persist every draft in order. -/
def saveAllDrafts (store : List StoredEvent) :
    List EventDraft → List StoredEvent
  | [] => store
  | d :: rest => saveAllDrafts (store ++ [storedOfDraft (freshId store) d]) rest

/-- Embedding of `parse_and_save_events` (parsers/events.py), with the parsed
document's drafts and the stored events passed explicitly.  Two passes:
validate every draft against the pre-existing events only; persist all of
them only if every draft passed. -/
def parse_and_save_events (drafts : List EventDraft) (store : List StoredEvent) :
    Except String Unit × List StoredEvent :=
  match validateAllDrafts store drafts with
  | Except.error e => (Except.error e, store)
  | Except.ok _ => (Except.ok (), saveAllDrafts store drafts)

/-- The identity-free payload of a stored event, used to state that pass 2
persists exactly the drafts. -/
def eventData (ev : StoredEvent) : String × String × String × String × String × String :=
  (ev.name, ev.requester_type, ev.date, ev.start_time, ev.end_time, ev.location)

/-- The corresponding payload of a draft. -/
def draftData (d : EventDraft) : String × String × String × String × String × String :=
  (d.name, d.requester_type, d.date, d.start_time, d.end_time, d.location)

/-! ## `api_server.py` — `model_to_dict`

A textX object graph is modelled as a heap: objects are identified by their
Python `id(obj)` and looked up in a total map, so the graph may contain
cycles and shared subobjects.  Python primitives are carried opaquely
(floats by their repr — no float arithmetic occurs; the converter passes
primitives through unchanged). -/

/-- A Python primitive passed through unchanged by `model_to_dict`. -/
inductive PyPrim where
  | pstr (s : String)
  | pint (n : Int)
  | pbool (b : Bool)
  | pfloat (repr : String)
  deriving Repr, DecidableEq

/-- A Python value reachable during conversion: `None`, a primitive, a
list/tuple, a reference to an object with `__dict__`, or any other object
(converted via `str(obj)`, carried here as that string). -/
inductive PyValue where
  | vnone
  | prim (p : PyPrim)
  | seq (items : List PyValue)
  | ref (oid : Nat)
  | other (reprStr : String)
  deriving Repr

/-- The `__dict__` and class name of one heap object. -/
structure PyObj where
  className : String
  attrs : List (String × PyValue)

/-- The heap: a total map from object identity to object. -/
def PyHeap : Type := Nat → PyObj

/-- JSON-serializable output of `model_to_dict`. -/
inductive Json where
  | null
  | jprim (p : PyPrim)
  | arr (items : List Json)
  | obj (fields : List (String × Json))
  deriving Repr

/-- The `{"__type__": "MaxDepthReached"}` marker. -/
def maxDepthMarker : Json :=
  Json.obj [("__type__", Json.jprim (PyPrim.pstr "MaxDepthReached"))]

/-- The `{"__type__": cls, "__note__": "circular_reference"}` marker. -/
def circularMarker (cls : String) : Json :=
  Json.obj [("__type__", Json.jprim (PyPrim.pstr cls)),
            ("__note__", Json.jprim (PyPrim.pstr "circular_reference"))]

/-- Attribute filter of `model_to_dict`: underscore-prefixed attributes and
the parent back-references `parent`, `parent_obj`, `parent_ref` are skipped. -/
def keepAttr (name : String) : Bool :=
  !(name.startsWith "_") && name ≠ "parent" && name ≠ "parent_obj" && name ≠ "parent_ref"

mutual

/-- Worker of `model_to_dict` over remaining depth budget
`fuel = max_depth + 1 - current_depth` (the source guard
`current_depth > max_depth` is exactly `fuel = 0`).  The `visited` set of
object identities is threaded through children, as the source mutates one
shared set.  Total on every heap, cyclic ones included. -/
def mtd (heap : PyHeap) (fuel : Nat) (v : PyValue) (visited : List Nat) :
    Json × List Nat :=
  match v, fuel with
  | PyValue.vnone, _ => (Json.null, visited)
  | _, 0 => (maxDepthMarker, visited)
  | PyValue.prim p, _ + 1 => (Json.jprim p, visited)
  | PyValue.seq items, f + 1 =>
    let r := mtdList heap f items visited
    (Json.arr r.1, r.2)
  | PyValue.ref oid, f + 1 =>
    if oid ∈ visited then (circularMarker (heap oid).className, visited)
    else
      let kept := (heap oid).attrs.filter (fun a => keepAttr a.1)
      let r := mtdAttrs heap f kept (oid :: visited)
      (Json.obj (("__type__", Json.jprim (PyPrim.pstr (heap oid).className)) :: r.1), r.2)
  | PyValue.other s, _ + 1 => (Json.jprim (PyPrim.pstr s), visited)
termination_by (fuel, 0)

/-- Conversion of the elements of a list value, threading `visited`. -/
def mtdList (heap : PyHeap) (fuel : Nat) (items : List PyValue) (visited : List Nat) :
    List Json × List Nat :=
  match items with
  | [] => ([], visited)
  | x :: xs =>
    let a := mtd heap fuel x visited
    let b := mtdList heap fuel xs a.2
    (a.1 :: b.1, b.2)
termination_by (fuel, items.length + 1)

/-- Conversion of the kept attributes of an object, threading `visited`. -/
def mtdAttrs (heap : PyHeap) (fuel : Nat) (attrs : List (String × PyValue))
    (visited : List Nat) : List (String × Json) × List Nat :=
  match attrs with
  | [] => ([], visited)
  | (n, x) :: xs =>
    let a := mtd heap fuel x visited
    let b := mtdAttrs heap fuel xs a.2
    ((n, a.1) :: b.1, b.2)
termination_by (fuel, attrs.length + 1)

end

/-- Embedding of `model_to_dict` (api_server.py) in the source's signature;
in the source `max_depth` defaults to 20, `current_depth` to 0 and the
visited set to empty. -/
def model_to_dict (heap : PyHeap) (v : PyValue) (max_depth current_depth : Nat)
    (visited : List Nat) : Json × List Nat :=
  mtd heap (max_depth + 1 - current_depth) v visited

/-! ## Spec-side definitions used to compare code with the spec's words -/

/-- Modelled from the spec: a string "matches 24-hour `HH:MM` with
`0 ≤ HH < 24`, `0 ≤ MM < 60`" — two digits, a colon, two digits, with the
hour and minute values in range. -/
def specTimeFormat (s : String) : Bool :=
  match s.data with
  | [h1, h2, c, m1, m2] =>
    h1.isDigit && h2.isDigit && c = ':' && m1.isDigit && m2.isDigit
      && decide (digitVal h1 * 10 + digitVal h2 < 24)
      && decide (digitVal m1 * 10 + digitVal m2 < 60)
  | _ => false

/-- The minutes-since-midnight value `HH * 60 + MM` of a strict `HH:MM`
string (0 on non-matching strings). -/
def specTimeValue (s : String) : Nat :=
  match s.data with
  | [h1, h2, _, m1, m2] =>
    (digitVal h1 * 10 + digitVal h2) * 60 + (digitVal m1 * 10 + digitVal m2)
  | _ => 0

/-- Field names of a form, in declaration order. -/
def formFieldNames (form : FormSpec) : List String :=
  form.fields.map (fun f => f.field_name)

/-- Requester types of a document's forms, in declaration order. -/
def docRequesters (doc : RulesDocument) : List String :=
  doc.forms.map (fun fo => fo.requester_type)

/-- Semantic rule 3 of the rules validator: no duplicate field names within
the form. -/
def ruleNoDupFields (form : FormSpec) : Prop := (formFieldNames form).Nodup

/-- Semantic rule 4: `options` only on allow-listed fields. -/
def ruleOptionsAllowed (form : FormSpec) : Prop :=
  ∀ f ∈ form.fields, f.options ≠ [] → f.field_name ∈ ALLOWED_OPTION_FIELDS

/-- Semantic rule 5 (per-field half): mandatory fields are `required = yes`. -/
def ruleMandatoryRequired (form : FormSpec) : Prop :=
  ∀ f ∈ form.fields, f.field_name ∈ MANDATORY_FIELDS → f.required = "yes"

/-- Semantic rule 5 (presence half): every mandatory field appears. -/
def ruleMandatoryPresent (form : FormSpec) : Prop :=
  ∀ n ∈ MANDATORY_FIELDS, n ∈ formFieldNames form

/-- Semantic rule 2: no duplicate requester type across forms. -/
def ruleNoDupForms (doc : RulesDocument) : Prop := (docRequesters doc).Nodup

/-- Semantic rule 6: every required requester type has a form. -/
def ruleRequiredForms (doc : RulesDocument) : Prop :=
  ∀ r ∈ REQUIRED_REQUESTER_TYPES, r ∈ docRequesters doc

/-! ## Concrete instances used by witnesses and counterexamples -/

/-- A stored event occupying 10:00–11:00 at REC on 2025-03-01. -/
def evTen : StoredEvent :=
  { id := 1, name := "Existing", requester_type := "Academics"
    date := "2025-03-01", start_time := "10:00", end_time := "11:00"
    location := "REC", requester_unit := none }

/-- A one-event storage used by the back-to-back instances. -/
def dbTen : List StoredEvent := [evTen]

/-- A well-formed field block for a mandatory field. -/
def fieldWF (n : String) : FieldSpec :=
  { field_name := n, visible := "yes", required := "yes", label := none, options := [] }

/-- Counterexample document for the claimed global rule ordering: form 1
duplicates a field (rule 3), form 2 duplicates form 1's requester type
(rule 2, earlier in the claimed order). -/
def docDupBoth : RulesDocument :=
  { init_status := "yes"
    forms :=
      [ { requester_type := "Academics", fields := [fieldWF "event_name", fieldWF "event_name"] }
      , { requester_type := "Academics", fields := [] } ] }

/-- A document whose runtime flag is off. -/
def docRuntimeOff : RulesDocument :=
  { init_status := "no"
    forms := [ { requester_type := "Academics", fields := [fieldWF "event_name"] } ] }

/-- A trivial heap for the converter instances. -/
def heapTriv : PyHeap := fun _ => { className := "Obj", attrs := [] }

/-- A pre-existing stored rule row, used to observe that failed rules
ingestion does not clear the store. -/
def rowExisting : FieldRuleRow :=
  { requester_type := "Students", field_name := "event_name", visible := true
    required := true, label := none, options := none }

/-- A draft 30 minutes long, rejected by the scheduling validator. -/
def draftBad : EventDraft :=
  { name := "Short", requester_type := "Students", date := "2025-03-01"
    start_time := "10:00", end_time := "10:30", location := "REC" }

/-- Whether an `Except` result is a success (used to state that a stored
event's times parse). -/
def exceptOk {α : Type} : Except String α → Bool
  | Except.ok _ => true
  | Except.error _ => false

/-- Three stored events at the same (date, location) that all overlap
10:00–11:00. -/
def dbThree : List StoredEvent :=
  [ { id := 1, name := "A", requester_type := "Academics", date := "2025-03-01"
      start_time := "10:00", end_time := "11:00", location := "REC", requester_unit := none }
  , { id := 2, name := "B", requester_type := "Students", date := "2025-03-01"
      start_time := "10:30", end_time := "11:30", location := "REC", requester_unit := some "Math" }
  , { id := 3, name := "C", requester_type := "Academics", date := "2025-03-01"
      start_time := "09:30", end_time := "10:30", location := "REC", requester_unit := none } ]

/-! ## Theorems -/

/-- The conflict loop, when every stored event's times parse, succeeds and
returns exactly the formatted lines of the conflicting events, in order. -/
theorem collectConflicts_eq (ns ne : Nat) (l : List StoredEvent)
    (h : ∀ ev ∈ l, exceptOk (parse_time_to_minutes ev.start_time) = true
        ∧ exceptOk (parse_time_to_minutes ev.end_time) = true) :
    collectConflicts ns ne l = Except.ok ((l.filter (conflictB ns ne)).map fmtConflict) := by
  induction l with
  | nil => rfl
  | cons ev rest ih =>
    obtain ⟨hs, he⟩ := h ev (by simp)
    obtain ⟨es, hes⟩ : ∃ v, parse_time_to_minutes ev.start_time = Except.ok v := by
      cases hx : parse_time_to_minutes ev.start_time
      · rw [hx] at hs; simp [exceptOk] at hs
      · exact ⟨_, rfl⟩
    obtain ⟨ee, hee⟩ : ∃ v, parse_time_to_minutes ev.end_time = Except.ok v := by
      cases hx : parse_time_to_minutes ev.end_time
      · rw [hx] at he; simp [exceptOk] at he
      · exact ⟨_, rfl⟩
    have ih' := ih (fun x hx => h x (by simp [hx]))
    unfold collectConflicts
    simp only [hes, hee, ih']
    simp only [List.filter_cons, conflictB, hes, hee]
    by_cases hov : overlapB ns ne es ee <;> simp [hov]

/-- C1: for a candidate passing the format, ordering and duration checks,
the validator queries exactly the stored events matching (date, location),
and (provided those events' stored times parse) accepts iff none of them
overlaps the candidate, raising the conflict error listing the overlapping
ones otherwise. -/
theorem scheduling_conflict_query (db : List StoredEvent)
    (n r d s e loc : String) (s_min e_min : Nat)
    (hs : parse_time_to_minutes s = Except.ok s_min)
    (he : parse_time_to_minutes e = Except.ok e_min)
    (hord : s_min < e_min) (hdur : 60 ≤ e_min - s_min)
    (hdb : ∀ ev ∈ get_events_for_date_location db d loc,
        exceptOk (parse_time_to_minutes ev.start_time) = true
          ∧ exceptOk (parse_time_to_minutes ev.end_time) = true) :
    (∀ ev : StoredEvent, ev ∈ get_events_for_date_location db d loc ↔
        ev ∈ db ∧ ev.date = d ∧ ev.location = loc)
    ∧ (validate_event_scheduling db n r d s e loc = Except.ok () ↔
        ∀ ev ∈ get_events_for_date_location db d loc, conflictB s_min e_min ev = false)
    ∧ ((∃ ev ∈ get_events_for_date_location db d loc, conflictB s_min e_min ev = true) →
        validate_event_scheduling db n r d s e loc =
          Except.error (conflictHeader ++ String.intercalate "\n"
            (((get_events_for_date_location db d loc).filter (conflictB s_min e_min)).map
              fmtConflict))) := by
  have hval : validate_event_scheduling db n r d s e loc =
      (if (((get_events_for_date_location db d loc).filter
            (conflictB s_min e_min)).map fmtConflict).isEmpty then Except.ok ()
       else Except.error (conflictHeader ++ String.intercalate "\n"
        (((get_events_for_date_location db d loc).filter (conflictB s_min e_min)).map
          fmtConflict))) := by
    unfold validate_event_scheduling
    simp only [hs, he]
    rw [if_neg (by omega), if_neg (by omega), collectConflicts_eq s_min e_min _ hdb]
  refine ⟨?_, ?_, ?_⟩
  · intro ev
    simp [get_events_for_date_location, List.mem_filter]
  · rw [hval]
    by_cases hempty : (get_events_for_date_location db d loc).filter
        (conflictB s_min e_min) = []
    · rw [if_pos (by simp [List.isEmpty_iff, hempty])]
      simp only [true_iff]
      intro ev hev
      have := List.filter_eq_nil_iff.mp hempty ev hev
      simpa using this
    · rw [if_neg (by simp [List.isEmpty_iff, hempty])]
      constructor
      · intro h
        exact absurd h (by simp)
      · intro hall
        exact absurd (List.filter_eq_nil_iff.mpr (fun ev hev => by simp [hall ev hev]))
          hempty
  · intro hconf
    have hne : (get_events_for_date_location db d loc).filter (conflictB s_min e_min) ≠ [] := by
      obtain ⟨ev, hev, hc⟩ := hconf
      intro hnil
      have := List.filter_eq_nil_iff.mp hnil ev hev
      simp [hc] at this
    rw [hval, if_neg (by simp [List.isEmpty_iff, hne])]

/-- C1 witness: one stored 10:00–11:00 event at (2025-03-01, REC); candidate
10:30–11:30 there is rejected with the conflict list. -/
theorem scheduling_conflict_query_witness :
    validate_event_scheduling dbTen "Fair" "Students" "2025-03-01" "10:30" "11:30" "REC" =
      Except.error (conflictHeader ++ String.intercalate "\n"
        (((get_events_for_date_location dbTen "2025-03-01" "REC").filter
          (conflictB 630 690)).map fmtConflict)) :=
  (scheduling_conflict_query dbTen "Fair" "Students" "2025-03-01" "10:30" "11:30" "REC"
      630 690 rfl rfl (by decide) (by decide) (by decide)).2.2
    ⟨evTen, by decide, by decide⟩

/-- C3: when at least one fetched event conflicts, the error message lists
every conflicting event (each line carries its id, date, time range, name,
requester and location), not only the first. -/
theorem scheduling_conflict_enumeration (db : List StoredEvent)
    (n r d s e loc : String) (s_min e_min : Nat)
    (hs : parse_time_to_minutes s = Except.ok s_min)
    (he : parse_time_to_minutes e = Except.ok e_min)
    (hord : s_min < e_min) (hdur : 60 ≤ e_min - s_min)
    (hdb : ∀ ev ∈ get_events_for_date_location db d loc,
        exceptOk (parse_time_to_minutes ev.start_time) = true
          ∧ exceptOk (parse_time_to_minutes ev.end_time) = true)
    (hconf : (get_events_for_date_location db d loc).filter (conflictB s_min e_min) ≠ []) :
    validate_event_scheduling db n r d s e loc =
      Except.error (conflictHeader ++ String.intercalate "\n"
        (((get_events_for_date_location db d loc).filter (conflictB s_min e_min)).map
          fmtConflict)) := by
  unfold validate_event_scheduling
  simp only [hs, he]
  rw [if_neg (by omega), if_neg (by omega), collectConflicts_eq s_min e_min _ hdb]
  show (if (((get_events_for_date_location db d loc).filter
        (conflictB s_min e_min)).map fmtConflict).isEmpty then Except.ok ()
      else Except.error (conflictHeader ++ String.intercalate "\n"
        (((get_events_for_date_location db d loc).filter (conflictB s_min e_min)).map
          fmtConflict))) = _
  rw [if_neg (by simp [List.isEmpty_iff, hconf])]

/-- C3 witness: three stored events at (2025-03-01, REC) all overlapping a
10:00–11:00 candidate; the rejection lists all three conflict lines. -/
theorem scheduling_conflict_enumeration_witness :
    validate_event_scheduling dbThree "Expo" "Students" "2025-03-01" "10:00" "11:00" "REC" =
      Except.error (conflictHeader ++ String.intercalate "\n"
        (((get_events_for_date_location dbThree "2025-03-01" "REC").filter
          (conflictB 600 660)).map fmtConflict)) :=
  scheduling_conflict_enumeration dbThree "Expo" "Students" "2025-03-01" "10:00" "11:00"
    "REC" 600 660 rfl rfl (by decide) (by decide) (by decide) (by decide)

/-- C10: the scheduling verdict never depends on the candidate's name or
requester type: for any storage and any shared (date, start, end, location),
two candidates differing only in name and/or requester type get the exact
same result — same acceptance, same violated check, same conflict list. -/
theorem scheduling_identity_noninterference (db : List StoredEvent)
    (n₁ r₁ n₂ r₂ d s e loc : String) :
    validate_event_scheduling db n₁ r₁ d s e loc =
      validate_event_scheduling db n₂ r₂ d s e loc := rfl

/-- C2: the conflict test is half-open interval intersection —
`overlapB` holds iff `NOT (candidate.end ≤ existing.start ∨
candidate.start ≥ existing.end)`; concretely, against a stored 10:00–11:00
event a candidate ending 10:00 or starting 11:00 passes, while a candidate
ending 10:01 conflicts. -/
theorem scheduling_overlap_halfopen :
    (∀ ns ne es ee : Nat, overlapB ns ne es ee = true ↔ ¬ (ne ≤ es ∨ ns ≥ ee))
    ∧ validate_event_scheduling dbTen "New" "Students" "2025-03-01" "09:00" "10:00" "REC" =
        Except.ok ()
    ∧ validate_event_scheduling dbTen "New" "Students" "2025-03-01" "11:00" "12:00" "REC" =
        Except.ok ()
    ∧ validate_event_scheduling dbTen "New" "Students" "2025-03-01" "09:01" "10:01" "REC" =
        Except.error (conflictHeader ++ fmtConflict evTen) := by
  refine ⟨fun ns ne es ee => ?_, by rfl, by rfl, by rfl⟩
  simp [overlapB, not_or]

/-- C4: with parsed times, `start_min ≥ end_min` fails with the ordering
error and a sub-60-minute duration fails reporting the actual duration, in
both cases for every storage whatsoever (so before any conflict query);
concretely a 59-minute event fails reporting 59 and a 60-minute event
passes absent conflicts. -/
theorem scheduling_order_duration_precheck :
    (∀ (db : List StoredEvent) (n r d s e loc : String) (s_min e_min : Nat),
        parse_time_to_minutes s = Except.ok s_min →
        parse_time_to_minutes e = Except.ok e_min → e_min ≤ s_min →
        validate_event_scheduling db n r d s e loc = Except.error (orderErr s e))
    ∧ (∀ (db : List StoredEvent) (n r d s e loc : String) (s_min e_min : Nat),
        parse_time_to_minutes s = Except.ok s_min →
        parse_time_to_minutes e = Except.ok e_min → s_min < e_min →
        e_min - s_min < 60 →
        validate_event_scheduling db n r d s e loc =
          Except.error (durationErr (e_min - s_min)))
    ∧ (∀ (db : List StoredEvent) (n r d loc : String),
        validate_event_scheduling db n r d "09:00" "09:59" loc =
          Except.error (durationErr 59))
    ∧ (∀ (n r d loc : String),
        validate_event_scheduling [] n r d "09:00" "10:00" loc = Except.ok ()) := by
  refine ⟨?_, ?_, fun db n r d loc => rfl, fun n r d loc => rfl⟩
  · intro db n r d s e loc s_min e_min hs he hord
    unfold validate_event_scheduling
    simp only [hs, he]
    rw [if_pos (show s_min ≥ e_min from hord)]
  · intro db n r d s e loc s_min e_min hs he hord hdur
    unfold validate_event_scheduling
    simp only [hs, he]
    rw [if_neg (by omega), if_pos hdur]

/-- C4 witness: a start equal to the end fails with the ordering error for
the empty storage. -/
theorem scheduling_order_duration_precheck_witness :
    validate_event_scheduling [] "Ev" "Students" "2025-03-01" "10:00" "10:00" "REC" =
      Except.error (orderErr "10:00" "10:00") :=
  scheduling_order_duration_precheck.1 [] "Ev" "Students" "2025-03-01" "10:00" "10:00"
    "REC" 600 600 rfl rfl (by decide)

/-- A digit character is not Python whitespace and is none of the special
characters the time parser dispatches on. -/
theorem isDigit_side {c : Char} (h : c.isDigit = true) :
    isPyWS c = false ∧ c ≠ ':' ∧ c ≠ '+' ∧ c ≠ '-' ∧ c ≠ '_' := by
  refine ⟨?_, ?_, ?_, ?_, ?_⟩
  · cases hw : isPyWS c
    · rfl
    · exfalso
      unfold isPyWS at hw
      simp only [Bool.or_eq_true, decide_eq_true_eq] at hw
      rcases hw with ((((rfl | rfl) | rfl) | rfl) | rfl) | rfl <;> exact absurd h (by decide)
  · intro hc; rw [hc] at h; exact absurd h (by decide)
  · intro hc; rw [hc] at h; exact absurd h (by decide)
  · intro hc; rw [hc] at h; exact absurd h (by decide)
  · intro hc; rw [hc] at h; exact absurd h (by decide)

/-- C5 (amended): the parse accepts every strict `HH:MM` string with the
in-range value `HH*60+MM`; in general it succeeds exactly when the stripped
string splits at `":"` into two parts that Python's `int` accepts with
values in range (a strictly looser condition than `HH:MM`); every failure
carries the format error naming the offending string; and a time-format
failure decides the validator's result before the ordering, duration and
conflict checks, for any storage. -/
theorem time_parse_characterization :
    (∀ s : String, specTimeFormat s = true →
        parse_time_to_minutes s = Except.ok (specTimeValue s))
    ∧ (∀ (s : String) (n : Nat), parse_time_to_minutes s = Except.ok n ↔
        ∃ a b, ∃ hh mm : Int, splitOnChar ':' (pyStripChars s.data) = [a, b]
          ∧ pyInt a = some hh ∧ pyInt b = some mm
          ∧ 0 ≤ hh ∧ hh < 24 ∧ 0 ≤ mm ∧ mm < 60 ∧ n = hh.toNat * 60 + mm.toNat)
    ∧ (∀ s : String, (∃ n, parse_time_to_minutes s = Except.ok n)
        ∨ parse_time_to_minutes s = Except.error (timeFormatErr s))
    ∧ (∀ (db : List StoredEvent) (nm r d s e loc msg : String),
        parse_time_to_minutes s = Except.error msg →
        validate_event_scheduling db nm r d s e loc = Except.error msg)
    ∧ (∀ (db : List StoredEvent) (nm r d s e loc msg : String) (v : Nat),
        parse_time_to_minutes s = Except.ok v →
        parse_time_to_minutes e = Except.error msg →
        validate_event_scheduling db nm r d s e loc = Except.error msg) := by
  refine ⟨?_, ?_, ?_, ?_, ?_⟩
  · intro s hfmt
    unfold specTimeFormat at hfmt
    rcases hsd : s.data with _ | ⟨h1, _ | ⟨h2, _ | ⟨c, _ | ⟨m1, _ | ⟨m2, _ | rest⟩⟩⟩⟩⟩ <;>
      rw [hsd] at hfmt <;> try exact absurd hfmt Bool.false_ne_true
    case cons.cons.cons.cons.cons.nil =>
      simp only [Bool.and_eq_true, decide_eq_true_eq] at hfmt
      obtain ⟨⟨⟨⟨⟨⟨hd1, hd2⟩, hc⟩, hd3⟩, hd4⟩, hlt24⟩, hlt60⟩ := hfmt
      subst hc
      obtain ⟨hw1, hc1, hp1, hm1, hu1⟩ := isDigit_side hd1
      obtain ⟨hw2, hc2, hp2, hm2, hu2⟩ := isDigit_side hd2
      obtain ⟨hw3, hc3, hp3, hm3, hu3⟩ := isDigit_side hd3
      obtain ⟨hw4, hc4, hp4, hm4, hu4⟩ := isDigit_side hd4
      have hstrip : pyStripChars [h1, h2, ':', m1, m2] = [h1, h2, ':', m1, m2] := by
        simp [pyStripChars, List.dropWhile, hw1, hw4]
      have hsplit : splitOnChar ':' [h1, h2, ':', m1, m2] = [[h1, h2], [m1, m2]] := by
        simp [splitOnChar, hc1, hc2, hc3, hc4]
      have hint1 : pyInt [h1, h2] = some ((digitVal h1 * 10 + digitVal h2 : Nat) : Int) := by
        simp [pyInt, pyStripChars, List.dropWhile, hw1, hw2, hp1, hm1,
          pyDigits, hd1, pyDigitsCore, hu2, hd2]
      have hint2 : pyInt [m1, m2] = some ((digitVal m1 * 10 + digitVal m2 : Nat) : Int) := by
        simp [pyInt, pyStripChars, List.dropWhile, hw3, hw4, hp3, hm3,
          pyDigits, hd3, pyDigitsCore, hu4, hd4]
      unfold parse_time_to_minutes
      rw [hsd, hstrip]
      simp only [hsplit, hint1, hint2]
      rw [if_pos ⟨by positivity, by exact_mod_cast hlt24, by positivity, by exact_mod_cast hlt60⟩]
      have hval : specTimeValue s =
          (digitVal h1 * 10 + digitVal h2) * 60 + (digitVal m1 * 10 + digitVal m2) := by
        unfold specTimeValue
        rw [hsd]
      rw [hval]
      refine congrArg Except.ok ?_
      omega
  · intro s n
    unfold parse_time_to_minutes
    constructor
    · intro hok
      split at hok
      · rename_i p1 p2 hsp
        split at hok
        · rename_i hh mm hpa hpb
          split_ifs at hok with hcond
          obtain ⟨hc1, hc2, hc3, hc4⟩ := hcond
          exact ⟨p1, p2, hh, mm, hsp, hpa, hpb, hc1, hc2, hc3, hc4,
            (Except.ok.inj hok).symm⟩
        · exact Except.noConfusion hok
      · exact Except.noConfusion hok
    · rintro ⟨a, b, hh, mm, hsp, hpa, hpb, hc1, hc2, hc3, hc4, rfl⟩
      rw [hsp]
      simp only [hpa, hpb]
      rw [if_pos ⟨hc1, hc2, hc3, hc4⟩]
  · intro s
    unfold parse_time_to_minutes
    split
    · split
      · split
        · exact Or.inl ⟨_, rfl⟩
        · exact Or.inr rfl
      · exact Or.inr rfl
    · exact Or.inr rfl
  · intro db nm r d s e loc msg hmsg
    unfold validate_event_scheduling
    simp only [hmsg]
  · intro db nm r d s e loc msg v hv hmsg
    unfold validate_event_scheduling
    simp only [hv, hmsg]

/-- C5 witness: `"09:30"` is a strict `HH:MM` string and parses to its
minute value. -/
theorem time_parse_characterization_witness :
    parse_time_to_minutes "09:30" = Except.ok (specTimeValue "09:30") :=
  time_parse_characterization.1 "09:30" rfl

/-- C5 counterexample: `"+1:30"` does not match 24-hour `HH:MM`, yet the
parse accepts it (Python `int` tolerates the sign) and returns 90. -/
theorem time_parse_strict_format_counterexample :
    parse_time_to_minutes "+1:30" = Except.ok 90 ∧ specTimeFormat "+1:30" = false :=
  ⟨rfl, rfl⟩

/-- Case split on an `Except` value, phrased with equations so that the
goal can be reduced with `simp only`. -/
theorem except_shape {α : Type} (x : Except String α) :
    (∃ e, x = Except.error e) ∨ ∃ a, x = Except.ok a := by
  cases x
  · exact Or.inl ⟨_, rfl⟩
  · exact Or.inr ⟨_, rfl⟩

/-- The field loop succeeds iff the field names are distinct among
themselves and from `seen`, options appear only on allow-listed fields and
mandatory fields are `required = yes`. -/
theorem checkFieldsLoop_iff (r : String) (fields : List FieldSpec) :
    ∀ seen : List String, exceptOk (checkFieldsLoop r seen fields) = true ↔
      ((fields.map fun f => f.field_name).Nodup
        ∧ (∀ f ∈ fields, f.field_name ∉ seen)
        ∧ (∀ f ∈ fields, f.options ≠ [] → f.field_name ∈ ALLOWED_OPTION_FIELDS)
        ∧ (∀ f ∈ fields, f.field_name ∈ MANDATORY_FIELDS → f.required = "yes")) := by
  induction fields with
  | nil =>
    intro seen
    simp [checkFieldsLoop, exceptOk]
  | cons f rest ih =>
    intro seen
    unfold checkFieldsLoop
    by_cases h1 : f.field_name ∈ seen
    · rw [if_pos h1]
      simp only [exceptOk, Bool.false_eq_true, false_iff]
      rintro ⟨-, hns, -, -⟩
      exact hns f (by simp) h1
    · rw [if_neg h1]
      by_cases h2 : f.options ≠ [] ∧ f.field_name ∉ ALLOWED_OPTION_FIELDS
      · rw [if_pos h2]
        simp only [exceptOk, Bool.false_eq_true, false_iff]
        rintro ⟨-, -, hopt, -⟩
        exact h2.2 (hopt f (by simp) h2.1)
      · rw [if_neg h2]
        by_cases h3 : f.field_name ∈ MANDATORY_FIELDS ∧ f.required ≠ "yes"
        · rw [if_pos h3]
          simp only [exceptOk, Bool.false_eq_true, false_iff]
          rintro ⟨-, -, -, hreq⟩
          exact h3.2 (hreq f (by simp) h3.1)
        · rw [if_neg h3]
          rw [ih (f.field_name :: seen)]
          push_neg at h2 h3
          constructor
          · rintro ⟨hnd, hns, hopt, hreq⟩
            refine ⟨?_, ?_, ?_, ?_⟩
            · rw [List.map_cons, List.nodup_cons]
              refine ⟨fun hmem => ?_, hnd⟩
              obtain ⟨x, hx, hxe⟩ := List.mem_map.mp hmem
              exact hns x hx (by simp [hxe])
            · intro g hg
              rcases List.mem_cons.mp hg with rfl | hg'
              · exact h1
              · intro hsg
                exact hns g hg' (by simp [hsg])
            · intro g hg
              rcases List.mem_cons.mp hg with rfl | hg'
              · exact h2
              · exact hopt g hg'
            · intro g hg
              rcases List.mem_cons.mp hg with rfl | hg'
              · exact h3
              · exact hreq g hg'
          · rintro ⟨hnd, hns, hopt, hreq⟩
            rw [List.map_cons, List.nodup_cons] at hnd
            refine ⟨hnd.2, ?_, ?_, ?_⟩
            · intro g hg
              simp only [List.mem_cons]
              push_neg
              constructor
              · intro he
                exact hnd.1 (List.mem_map.mpr ⟨g, hg, he⟩)
              · exact hns g (by simp [hg])
            · intro g hg
              exact hopt g (by simp [hg])
            · intro g hg
              exact hreq g (by simp [hg])

/-- On success the field loop returns the accumulator extended with exactly
the field names of the list. -/
theorem checkFieldsLoop_names (r : String) (fields : List FieldSpec) :
    ∀ seen out, checkFieldsLoop r seen fields = Except.ok out →
      ∀ n, n ∈ out ↔ n ∈ seen ∨ n ∈ fields.map (fun f => f.field_name) := by
  induction fields with
  | nil =>
    intro seen out h n
    obtain rfl : seen = out := Except.ok.inj h
    simp
  | cons f rest ih =>
    intro seen out h n
    unfold checkFieldsLoop at h
    split_ifs at h
    have := ih (f.field_name :: seen) out h n
    rw [this]
    simp only [List.mem_cons, List.map_cons]
    tauto

/-- The per-form check succeeds iff the form satisfies rules 3, 4 and both
halves of rule 5. -/
theorem checkForm_iff (form : FormSpec) :
    exceptOk (checkForm form) = true ↔
      (ruleNoDupFields form ∧ ruleOptionsAllowed form ∧ ruleMandatoryRequired form
        ∧ ruleMandatoryPresent form) := by
  have hiff := checkFieldsLoop_iff form.requester_type form.fields []
  rcases except_shape (checkFieldsLoop form.requester_type [] form.fields) with
    ⟨e, hcf⟩ | ⟨names, hcf⟩
  · rw [hcf] at hiff
    unfold checkForm
    simp only [hcf]
    simp only [exceptOk, Bool.false_eq_true, false_iff] at hiff ⊢
    rintro ⟨hnd, hopt, hreq, -⟩
    exact hiff ⟨hnd, by simp, hopt, hreq⟩
  · have hnames := checkFieldsLoop_names form.requester_type form.fields [] names hcf
    rw [hcf] at hiff
    simp only [exceptOk, true_iff] at hiff
    obtain ⟨hnd, -, hopt, hreq⟩ := hiff
    unfold checkForm
    simp only [hcf]
    by_cases hfil : MANDATORY_FIELDS.filter (fun n => n ∉ names) = []
    · simp only [hfil, exceptOk, true_iff]
      refine ⟨hnd, hopt, hreq, ?_⟩
      intro n hn
      have := List.filter_eq_nil_iff.mp hfil n hn
      have hmem : n ∈ names := by simpa using this
      have := (hnames n).mp hmem
      simpa [formFieldNames] using this
    · obtain ⟨m, ms, hfil'⟩ := List.exists_cons_of_ne_nil hfil
      simp only [hfil', exceptOk, Bool.false_eq_true, false_iff]
      rintro ⟨-, -, -, hpres⟩
      have hm : m ∈ MANDATORY_FIELDS.filter (fun n => n ∉ names) := by
        rw [hfil']; simp
      have hm1 := List.mem_filter.mp hm
      have hm2 : m ∉ names := by simpa using hm1.2
      apply hm2
      rw [hnames m]
      right
      have := hpres m hm1.1
      simpa [formFieldNames] using this

/-- The form loop succeeds iff requester types are distinct among
themselves and from `seen` and every form passes its per-form check. -/
theorem checkFormsLoop_iff (forms : List FormSpec) :
    ∀ seen : List String, exceptOk (checkFormsLoop seen forms) = true ↔
      ((forms.map fun fo => fo.requester_type).Nodup
        ∧ (∀ fo ∈ forms, fo.requester_type ∉ seen)
        ∧ (∀ fo ∈ forms, exceptOk (checkForm fo) = true)) := by
  induction forms with
  | nil =>
    intro seen
    simp [checkFormsLoop, exceptOk]
  | cons fo rest ih =>
    intro seen
    unfold checkFormsLoop
    by_cases h1 : fo.requester_type ∈ seen
    · rw [if_pos h1]
      simp only [exceptOk, Bool.false_eq_true, false_iff]
      rintro ⟨-, hns, -⟩
      exact hns fo (by simp) h1
    · rw [if_neg h1]
      rcases except_shape (checkForm fo) with ⟨e, hcf⟩ | ⟨u, hcf⟩
      · simp only [hcf]
        simp only [exceptOk, Bool.false_eq_true, false_iff]
        rintro ⟨-, -, hok⟩
        have := hok fo (by simp)
        rw [hcf] at this
        exact absurd this (by simp [exceptOk])
      · simp only [hcf]
        rw [ih (fo.requester_type :: seen)]
        constructor
        · rintro ⟨hnd, hns, hok⟩
          refine ⟨?_, ?_, ?_⟩
          · rw [List.map_cons, List.nodup_cons]
            refine ⟨fun hmem => ?_, hnd⟩
            obtain ⟨x, hx, hxe⟩ := List.mem_map.mp hmem
            exact hns x hx (by simp [hxe])
          · intro g hg
            rcases List.mem_cons.mp hg with rfl | hg'
            · exact h1
            · intro hsg
              exact hns g hg' (by simp [hsg])
          · intro g hg
            rcases List.mem_cons.mp hg with rfl | hg'
            · rw [hcf]; rfl
            · exact hok g hg'
        · rintro ⟨hnd, hns, hok⟩
          rw [List.map_cons, List.nodup_cons] at hnd
          refine ⟨hnd.2, ?_, ?_⟩
          · intro g hg
            simp only [List.mem_cons]
            push_neg
            constructor
            · intro he
              exact hnd.1 (List.mem_map.mpr ⟨g, hg, he⟩)
            · exact hns g (by simp [hg])
          · intro g hg
            exact hok g (by simp [hg])

/-- On success the form loop returns the accumulator extended with exactly
the requester types of the list. -/
theorem checkFormsLoop_names (forms : List FormSpec) :
    ∀ seen out, checkFormsLoop seen forms = Except.ok out →
      ∀ r, r ∈ out ↔ r ∈ seen ∨ r ∈ forms.map (fun fo => fo.requester_type) := by
  induction forms with
  | nil =>
    intro seen out h r
    obtain rfl : seen = out := Except.ok.inj h
    simp
  | cons fo rest ih =>
    intro seen out h r
    unfold checkFormsLoop at h
    split_ifs at h
    rcases except_shape (checkForm fo) with ⟨e, hcf⟩ | ⟨u, hcf⟩
    · rw [hcf] at h
      exact Except.noConfusion h
    · rw [hcf] at h
      have := ih (fo.requester_type :: seen) out h r
      rw [this]
      simp only [List.mem_cons, List.map_cons]
      tauto

/-- The semantic validator accepts a document iff the runtime flag is on
and all six semantic rules hold. -/
theorem validate_model_ok_iff (doc : RulesDocument) :
    validate_model doc = Except.ok () ↔
      (doc.init_status = "yes" ∧ ruleNoDupForms doc
        ∧ (∀ fo ∈ doc.forms, ruleNoDupFields fo ∧ ruleOptionsAllowed fo
            ∧ ruleMandatoryRequired fo ∧ ruleMandatoryPresent fo)
        ∧ ruleRequiredForms doc) := by
  unfold validate_model
  by_cases hrt : doc.init_status ≠ "yes"
  · rw [if_pos hrt]
    constructor
    · intro h
      exact Except.noConfusion h
    · rintro ⟨h, -⟩
      exact absurd h hrt
  · rw [if_neg hrt]
    push_neg at hrt
    have hiff := checkFormsLoop_iff doc.forms []
    rcases except_shape (checkFormsLoop [] doc.forms) with ⟨e, hcl⟩ | ⟨seen, hcl⟩
    · rw [hcl] at hiff
      simp only [exceptOk, Bool.false_eq_true, false_iff] at hiff
      simp only [hcl]
      constructor
      · intro h
        exact Except.noConfusion h
      · rintro ⟨-, hnd, hforms, -⟩
        exfalso
        apply hiff
        refine ⟨?_, by simp, fun fo hfo => (checkForm_iff fo).mpr (hforms fo hfo)⟩
        simpa [ruleNoDupForms, docRequesters] using hnd
    · have hnames := checkFormsLoop_names doc.forms [] seen hcl
      rw [hcl] at hiff
      simp only [exceptOk, true_iff] at hiff
      obtain ⟨hnd, -, hok⟩ := hiff
      simp only [hcl]
      by_cases hfil : REQUIRED_REQUESTER_TYPES.filter (fun r => r ∉ seen) = []
      · simp only [hfil]
        constructor
        · intro _
          refine ⟨hrt, by simpa [ruleNoDupForms, docRequesters] using hnd,
            fun fo hfo => (checkForm_iff fo).mp (hok fo hfo), ?_⟩
          intro r hr
          have := List.filter_eq_nil_iff.mp hfil r hr
          have hmem : r ∈ seen := by simpa using this
          have := (hnames r).mp hmem
          simpa [docRequesters] using this
        · intro _
          trivial
      · obtain ⟨m, ms, hfil'⟩ := List.exists_cons_of_ne_nil hfil
        simp only [hfil']
        constructor
        · intro h
          exact Except.noConfusion h
        · rintro ⟨-, -, -, hreqd⟩
          exfalso
          have hm : m ∈ REQUIRED_REQUESTER_TYPES.filter (fun r => r ∉ seen) := by
            rw [hfil']; simp
          have hm1 := List.mem_filter.mp hm
          have hm2 : m ∉ seen := by simpa using hm1.2
          apply hm2
          rw [hnames m]
          right
          have := hreqd m hm1.1
          simpa [docRequesters] using this

/-- C6 (amended): the rules validator accepts exactly the documents
satisfying all six semantic rules, and the runtime-flag check is decided
first; but when several rules are violated the error raised is the first
one hit by the code's traversal (per form: duplicate requester, then per
field: duplicate name, options allow-list, mandatory-required, then
missing-mandatory; finally missing requester types), not necessarily the
rule earliest in the claim's global numbering. -/
theorem validate_model_semantics (doc : RulesDocument) :
    (validate_model doc = Except.ok () ↔
      (doc.init_status = "yes" ∧ ruleNoDupForms doc
        ∧ (∀ fo ∈ doc.forms, ruleNoDupFields fo ∧ ruleOptionsAllowed fo
            ∧ ruleMandatoryRequired fo ∧ ruleMandatoryPresent fo)
        ∧ ruleRequiredForms doc))
    ∧ (doc.init_status ≠ "yes" → validate_model doc = Except.error runtimeErr) := by
  refine ⟨validate_model_ok_iff doc, ?_⟩
  intro hrt
  unfold validate_model
  rw [if_pos hrt]

/-- C6 witness: a document with the runtime flag off is rejected with the
runtime error message. -/
theorem validate_model_semantics_witness :
    validate_model docRuntimeOff = Except.error runtimeErr :=
  (validate_model_semantics docRuntimeOff).2 (by decide)

/-- C6 counterexample: `docDupBoth` violates rule 2 (duplicate requester
type, earliest in the claimed order) yet the validator raises the rule-3
duplicate-field error for form 1 — not the error of the earliest violated
rule in the claimed global order. -/
theorem validate_model_order_counterexample :
    ¬ ruleNoDupForms docDupBoth
    ∧ validate_model docDupBoth = Except.error (dupFieldErr "event_name" "Academics")
    ∧ dupFieldErr "event_name" "Academics" ≠ dupFormErr "Academics" := by
  refine ⟨?_, rfl, ?_⟩
  · intro h
    simp [ruleNoDupForms, docRequesters, docDupBoth] at h
  · intro h
    exact absurd (congrArg String.length h) (by decide)

/-- C7: rules ingestion is atomic — any parse or semantic failure
(including every document with the runtime flag off) leaves the stored
rule set untouched, while success replaces it with the new rows in
per-form field order and returns the number of forms. -/
theorem rules_ingestion_atomic (parsed : Except String RulesDocument)
    (store : List FieldRuleRow) :
    (∀ e, parsed = Except.error e →
        parse_rules_from_text parsed store = (Except.error e, store))
    ∧ (∀ doc e, parsed = Except.ok doc → validate_model doc = Except.error e →
        parse_rules_from_text parsed store = (Except.error e, store))
    ∧ (∀ doc, parsed = Except.ok doc → doc.init_status ≠ "yes" →
        parse_rules_from_text parsed store = (Except.error runtimeErr, store))
    ∧ (∀ doc, parsed = Except.ok doc → validate_model doc = Except.ok () →
        parse_rules_from_text parsed store =
          (Except.ok doc.forms.length, doc.forms.flatMap rowsOfForm)) := by
  refine ⟨?_, ?_, ?_, ?_⟩
  · rintro e rfl
    rfl
  · rintro doc e rfl hval
    unfold parse_rules_from_text
    simp only [hval]
  · rintro doc rfl hrt
    unfold parse_rules_from_text
    have hval : validate_model doc = Except.error runtimeErr := by
      unfold validate_model
      rw [if_pos hrt]
    simp only [hval]
  · rintro doc rfl hval
    unfold parse_rules_from_text
    simp only [hval]

/-- C7 witness: ingesting a runtime-off document over a non-empty store
fails and leaves the store exactly as it was. -/
theorem rules_ingestion_atomic_witness :
    parse_rules_from_text (Except.ok docRuntimeOff) [rowExisting] =
      (Except.error runtimeErr, [rowExisting]) :=
  (rules_ingestion_atomic (Except.ok docRuntimeOff) [rowExisting]).2.2.1
    docRuntimeOff rfl (by decide)

/-- Pass 1 succeeds iff every draft validates against the original store. -/
theorem validateAllDrafts_ok_iff (store : List StoredEvent) (drafts : List EventDraft) :
    validateAllDrafts store drafts = Except.ok () ↔
      ∀ d ∈ drafts, validateDraft store d = Except.ok () := by
  induction drafts with
  | nil => simp [validateAllDrafts]
  | cons d rest ih =>
    unfold validateAllDrafts
    rcases except_shape (validateDraft store d) with ⟨e, hv⟩ | ⟨u, hv⟩
    · simp only [hv]
      constructor
      · intro h
        exact Except.noConfusion h
      · intro hall
        have := hall d (by simp)
        rw [hv] at this
        exact Except.noConfusion this
    · simp only [hv]
      rw [ih]
      constructor
      · intro hall g hg
        rcases List.mem_cons.mp hg with rfl | hg'
        · rw [hv]
        · exact hall g hg'
      · intro hall g hg
        exact hall g (by simp [hg])

/-- A pass-1 failure is the wrapped scheduling error of some draft. -/
theorem validateAllDrafts_error (store : List StoredEvent) (drafts : List EventDraft) :
    ∀ m, validateAllDrafts store drafts = Except.error m →
      ∃ d ∈ drafts, ∃ e, validateDraft store d = Except.error e ∧ m = draftErr d e := by
  induction drafts with
  | nil =>
    intro m h
    exact Except.noConfusion h
  | cons d rest ih =>
    intro m h
    unfold validateAllDrafts at h
    rcases except_shape (validateDraft store d) with ⟨e, hv⟩ | ⟨u, hv⟩
    · rw [hv] at h
      exact ⟨d, by simp, e, hv, (Except.error.inj h).symm⟩
    · rw [hv] at h
      obtain ⟨g, hg, e, hge, hm⟩ := ih m h
      exact ⟨g, by simp [hg], e, hge, hm⟩

/-- Pass 2 appends exactly the drafts' data after the prior store. -/
theorem saveAllDrafts_data (drafts : List EventDraft) :
    ∀ store, (saveAllDrafts store drafts).map eventData =
      store.map eventData ++ drafts.map draftData := by
  induction drafts with
  | nil =>
    intro store
    simp [saveAllDrafts]
  | cons d rest ih =>
    intro store
    unfold saveAllDrafts
    rw [ih]
    simp [eventData, draftData, storedOfDraft]

/-- C8: events ingestion is two-pass and all-or-nothing: it succeeds iff
every draft passes the scheduling validator against only the pre-existing
events (drafts are not cross-checked against each other); any failure is
the wrapped error of a failing draft — identifying it by name, date, time
range, requester and location — with the store left untouched; success
persists every draft. -/
theorem events_ingestion_two_pass (drafts : List EventDraft) (store : List StoredEvent) :
    ((parse_and_save_events drafts store).1 = Except.ok () ↔
      ∀ d ∈ drafts, validateDraft store d = Except.ok ())
    ∧ (∀ m, (parse_and_save_events drafts store).1 = Except.error m →
        (parse_and_save_events drafts store).2 = store
          ∧ ∃ d ∈ drafts, ∃ e, validateDraft store d = Except.error e ∧ m = draftErr d e)
    ∧ ((∀ d ∈ drafts, validateDraft store d = Except.ok ()) →
        parse_and_save_events drafts store = (Except.ok (), saveAllDrafts store drafts)
          ∧ (saveAllDrafts store drafts).map eventData =
              store.map eventData ++ drafts.map draftData) := by
  refine ⟨?_, ?_, ?_⟩
  · unfold parse_and_save_events
    rcases except_shape (validateAllDrafts store drafts) with ⟨e, hv⟩ | ⟨u, hv⟩
    · simp only [hv]
      constructor
      · intro h
        exact Except.noConfusion h
      · intro hall
        have := (validateAllDrafts_ok_iff store drafts).mpr hall
        rw [hv] at this
        exact Except.noConfusion this
    · simp only [hv]
      constructor
      · intro _
        exact (validateAllDrafts_ok_iff store drafts).mp (by rw [hv])
      · intro _
        trivial
  · intro m
    unfold parse_and_save_events
    rcases except_shape (validateAllDrafts store drafts) with ⟨e, hv⟩ | ⟨u, hv⟩
    · simp only [hv]
      intro h
      refine ⟨trivial, ?_⟩
      rw [← Except.error.inj h]
      exact validateAllDrafts_error store drafts e hv
    · simp only [hv]
      intro h
      exact Except.noConfusion h
  · intro hall
    have hv := (validateAllDrafts_ok_iff store drafts).mpr hall
    unfold parse_and_save_events
    simp only [hv]
    exact ⟨trivial, saveAllDrafts_data drafts store⟩

/-- C8 witness: a batch with one 30-minute draft fails, writes nothing, and
the failure is that draft's wrapped duration error. -/
theorem events_ingestion_two_pass_witness :
    (parse_and_save_events [draftBad] []).2 = []
      ∧ ∃ d ∈ [draftBad], ∃ e, validateDraft [] d = Except.error e
          ∧ draftErr draftBad (durationErr 30) = draftErr d e :=
  (events_ingestion_two_pass [draftBad] []).2.1 (draftErr draftBad (durationErr 30)) rfl

/-- Converting attributes preserves their names, in order. -/
theorem mtdAttrs_keys (heap : PyHeap) (fuel : Nat) (attrs : List (String × PyValue)) :
    ∀ vis, (mtdAttrs heap fuel attrs vis).1.map Prod.fst = attrs.map Prod.fst := by
  induction attrs with
  | nil =>
    intro vis
    simp [mtdAttrs]
  | cons a rest ih =>
    intro vis
    obtain ⟨n, x⟩ := a
    simp [mtdAttrs, ih]

/-- C9 (amended): the converter is total on arbitrary (cyclic) object
graphs by construction; any non-None value reached at depth greater than
the maximum is replaced by the `MaxDepthReached` marker (a `None` passes
through as null even beyond the depth limit); a ref to an already-visited
object within the depth limit yields the circular-reference marker without
recursing; and a fresh object's output carries `__type__` followed by
exactly its non-underscore, non-parent attributes, in order. -/
theorem converter_guards (heap : PyHeap) :
    (∀ (maxd cur : Nat) (vis : List Nat) (v : PyValue), maxd < cur → v ≠ PyValue.vnone →
        (model_to_dict heap v maxd cur vis).1 = maxDepthMarker)
    ∧ (∀ (maxd cur : Nat) (vis : List Nat) (oid : Nat), cur ≤ maxd → oid ∈ vis →
        model_to_dict heap (PyValue.ref oid) maxd cur vis =
          (circularMarker (heap oid).className, vis))
    ∧ (∀ (maxd cur : Nat) (vis : List Nat) (oid : Nat), cur ≤ maxd → oid ∉ vis →
        ∃ fields, (model_to_dict heap (PyValue.ref oid) maxd cur vis).1 = Json.obj fields
          ∧ fields.map Prod.fst =
              "__type__" :: ((heap oid).attrs.filter (fun a => keepAttr a.1)).map Prod.fst) := by
  refine ⟨?_, ?_, ?_⟩
  · intro maxd cur vis v hlt hne
    unfold model_to_dict
    have hfuel : maxd + 1 - cur = 0 := by omega
    rw [hfuel]
    cases v with
    | vnone => exact absurd rfl hne
    | prim p => simp [mtd]
    | seq items => simp [mtd]
    | ref oid => simp [mtd]
    | other s => simp [mtd]
  · intro maxd cur vis oid hle hmem
    unfold model_to_dict
    obtain ⟨f, hf⟩ : ∃ f, maxd + 1 - cur = f + 1 := ⟨maxd - cur, by omega⟩
    rw [hf]
    simp [mtd, hmem]
  · intro maxd cur vis oid hle hmem
    unfold model_to_dict
    obtain ⟨f, hf⟩ : ∃ f, maxd + 1 - cur = f + 1 := ⟨maxd - cur, by omega⟩
    rw [hf]
    refine ⟨("__type__", Json.jprim (PyPrim.pstr (heap oid).className)) ::
        (mtdAttrs heap f ((heap oid).attrs.filter (fun a => keepAttr a.1)) (oid :: vis)).1,
      ?_, ?_⟩
    · simp [mtd, hmem]
    · simp [mtdAttrs_keys]

/-- C9 witness: a reference to an already-visited object id, within the
depth limit, yields the circular-reference marker and an unchanged visited
set. -/
theorem converter_guards_witness :
    model_to_dict heapTriv (PyValue.ref 5) 20 0 [5] = (circularMarker "Obj", [5]) :=
  (converter_guards heapTriv).2.1 20 0 [5] 5 (by decide) (by decide)

/-- C9 counterexample: a `None` value at depth 21 > 20 is returned as JSON
null, not replaced by the `MaxDepthReached` marker (the converter checks
`obj is None` before the depth guard). -/
theorem converter_none_beats_depth_guard :
    (model_to_dict heapTriv PyValue.vnone 20 21 []).1 = Json.null
      ∧ Json.null ≠ maxDepthMarker := by
  constructor
  · simp [model_to_dict, mtd]
  · intro h
    rw [maxDepthMarker] at h
    exact Json.noConfusion h

end EventDSL
